import Mathlib

/-!
Shallow embedding of the MiniTravelDiary entry pipeline:
the in-memory entry repository (server/storage.ts, class MemStorage),
the HTTP route handlers over it (server routes: GET/POST/DELETE
/api/entries, POST /api/entries/:id/share and /unshare),
the zod insert-schema validation derived from shared/schema.ts, and the
client-side image resize step (client/src/lib/supabase.ts,
resizeAndCompressImage).

Conventions of the embedding:
- JavaScript `undefined` (an absent field) is `Option.none` at the outer
  layer; JSON `null` is a `JsonValue.null` value.
- JSON numbers are modelled as `Rat` (JSON numeric literals are finite
  decimals, which rationals represent exactly).  A JavaScript number that
  may be NaN (the result of a `Number(...)` coercion) is a `JsNum`.
- Timestamps: the source stores `new Date().toISOString()` and compares
  entries with `new Date(s).getTime()`.  Since `toISOString` followed by
  `Date` parsing is the identity on the underlying millisecond count, the
  embedding carries the millisecond count (a `Nat`) directly and threads
  the clock as an explicit `now` argument.
- The JS `Map` of entries is a list in insertion order: `Map.set` on a
  fresh key appends, `Map.set` on a present key replaces in place,
  `Map.delete` removes; iteration (`Array.from(map.values())`) is
  insertion order.
- `Array.prototype.sort` is stable (ES2019); the embedding uses the
  stable `List.mergeSort` with the same total preorder, which any stable
  sort determines uniquely.
-/

/-- A JSON value, as delivered by the body parser to the route handlers. -/
inductive JsonValue where
  | null
  | bool (b : Bool)
  | num (q : Rat)
  | str (s : String)
  | arr (elems : List JsonValue)
  | obj (fields : List (String × JsonValue))

/-- A JavaScript number that may be NaN (result of a `Number(x)` coercion). -/
inductive JsNum where
  | nan
  | val (q : Rat)
deriving DecidableEq, Repr

/-- JavaScript truthiness of a JSON value: `null`, `false`, `0` and the
empty string are falsy; arrays and objects are always truthy. -/
def JsonValue.truthy : JsonValue → Bool
  | .null => false
  | .bool b => b
  | .num q => !(q == 0)
  | .str s => !(s == "")
  | .arr _ => true
  | .obj _ => true

/-- Truthiness of a possibly-absent value: `undefined` is falsy. -/
def jsTruthy : Option JsonValue → Bool
  | none => false
  | some j => j.truthy

/-- JavaScript `typeof x === 'object'`: true for objects, arrays and null. -/
def JsonValue.isObjectType : JsonValue → Bool
  | .obj _ => true
  | .arr _ => true
  | .null => true
  | _ => false

/-- JavaScript `'k' in x` for a JSON value (property-key membership; a JSON
array has no named properties, and JSON objects coming from `JSON.parse`
have unique keys, so the first binding is the binding). -/
def JsonValue.hasField (j : JsonValue) (k : String) : Bool :=
  match j with
  | .obj fields => fields.any (fun f => f.1 == k)
  | _ => false

/-- Property access `x.k` on a JSON value: `undefined` unless `x` is an
object with the key. -/
def JsonValue.getField (j : JsonValue) (k : String) : Option JsonValue :=
  match j with
  | .obj fields => (fields.find? (fun f => f.1 == k)).map (·.2)
  | _ => none

/-- Optional chaining `x?.k`: `undefined` when `x` is absent or has no
such property. -/
def jsGet (j : Option JsonValue) (k : String) : Option JsonValue :=
  match j with
  | some v => v.getField k
  | none => none

/-- JavaScript `Number(x)` on a possibly-absent JSON value.  `undefined`
coerces to NaN, `null` to 0, booleans to 0/1, numbers to themselves.
Strings are modelled only as far as the program exercises them: the empty
string coerces to 0 and any other string to NaN (JavaScript additionally
parses numeric strings, a case no claim of this development touches).
Arrays and objects coerce via their string form; the embedding returns NaN
for them (exact for objects; a one-element numeric array would parse in
JavaScript, again a case never exercised here). -/
def jsNumber : Option JsonValue → JsNum
  | none => .nan
  | some .null => .val 0
  | some (.bool b) => .val (if b then 1 else 0)
  | some (.num q) => .val q
  | some (.str s) => if s == "" then .val 0 else .nan
  | some (.arr _) => .nan
  | some (.obj _) => .nan

/-- JavaScript `x || d` for an optional JSON value with default. -/
def jsOr (v : Option JsonValue) (d : JsonValue) : JsonValue :=
  match v with
  | some j => if j.truthy then j else d
  | none => d

/-- JavaScript `x || d` for strings: the empty string falls through. -/
def jsStrOr (v : Option String) (d : String) : String :=
  match v with
  | some s => if s == "" then d else s
  | none => d

/-- JavaScript `x || d` where both sides are nullable strings
(`shareId || entry.shareId` in `updateEntrySharing`). -/
def jsStrOrOpt (v : Option String) (d : Option String) : Option String :=
  match v with
  | some s => if s == "" then d else some s
  | none => d

/-- The location value stored by `MemStorage.createEntry`:
`{ lat: Number(location.lat), lng: Number(location.lng) }`. -/
structure StoredLocation where
  lat : JsNum
  lng : JsNum
deriving DecidableEq, Repr

/-- Screen info as prepared by `MemStorage.createEntry`:
`{ width: screenInfo?.width || 0, height: screenInfo?.height || 0,
orientation: screenInfo?.orientation || 'unknown' }`.  The fields stay
JSON values because the jsonb column is only shape-checked dynamically. -/
structure PreparedScreenInfo where
  width : JsonValue
  height : JsonValue
  orientation : JsonValue

/-- The persisted diary entry (shared/schema.ts, table diary_entries). -/
structure DiaryEntry where
  id : Nat
  userId : String
  caption : String
  imageUrl : String
  location : Option StoredLocation
  screenInfo : PreparedScreenInfo
  createdAt : Nat
  shareId : Option String
  isShared : Bool

/-- The in-memory store (server/storage.ts, class MemStorage): a map from
id to entry in insertion order, plus the id counter. -/
structure MemStorage where
  entries : List DiaryEntry
  currentId : Nat

/-- The constructor state: empty map, counter 1. -/
def MemStorage.init : MemStorage := ⟨[], 1⟩

/-- The argument of `MemStorage.createEntry` (`Omit<InsertDiaryEntry,
"id" | "createdAt">`).  The static type makes `userId`, `caption`,
`imageUrl` and `screenInfo` required strings/objects, but the method body
guards every field dynamically (`||` fallbacks, shape checks), so the
embedding keeps each field optional and jsonb fields as raw JSON.
`shareId`, `isShared` and `captionText` are accepted by the type and
ignored by the method. -/
structure StorageEntryInput where
  userId : String
  caption : Option String
  imageUrl : Option String
  location : Option JsonValue
  screenInfo : Option JsonValue
  shareId : Option (Option String)
  isShared : Option Bool
  captionText : Option String

/-- The fixed 1x1 placeholder PNG used when `imageUrl` is falsy. -/
def placeholderImage : String :=
  "data:image/png;base64,iVBORw0KGgoAAAANSUhEUgAAAAEAAAABCAYAAAAfFcSJAAAADUlEQVR42mP8z8BQDwAEhQGAhKmMIQAAAABJRU5ErkJggg=="

/-- MemStorage.createEntry (server/storage.ts lines 55-106): assigns the
next id, timestamps, normalizes `location` (kept only when it is a truthy
value of object type with both `lat` and `lng` properties, each coerced by
`Number`), fills `screenInfo` fields with `|| 0` / `|| 'unknown'`
fallbacks, defaults the caption to `'My travel memory'` and the image to
the 1x1 placeholder when falsy, forces `shareId: null, isShared: false`,
and appends the entry to the map. -/
def MemStorage.createEntry (st : MemStorage) (now : Nat)
    (entryData : StorageEntryInput) : DiaryEntry × MemStorage :=
  let id := st.currentId
  let locationData : Option StoredLocation :=
    match entryData.location with
    | some j =>
        if j.truthy && j.isObjectType && j.hasField "lat" && j.hasField "lng" then
          some ⟨jsNumber (j.getField "lat"), jsNumber (j.getField "lng")⟩
        else none
    | none => none
  let screenInfo : PreparedScreenInfo :=
    ⟨jsOr (jsGet entryData.screenInfo "width") (.num 0),
     jsOr (jsGet entryData.screenInfo "height") (.num 0),
     jsOr (jsGet entryData.screenInfo "orientation") (.str "unknown")⟩
  let newEntry : DiaryEntry :=
    { id := id
      userId := entryData.userId
      caption := jsStrOr entryData.caption "My travel memory"
      imageUrl := jsStrOr entryData.imageUrl placeholderImage
      location := locationData
      screenInfo := screenInfo
      createdAt := now
      shareId := none
      isShared := false }
  (newEntry, ⟨st.entries ++ [newEntry], st.currentId + 1⟩)

/-- MemStorage.getEntry: `this.entries.get(id)`.  The route hands the
result of `parseInt`, hence an integer that may be out of the `Nat` key
range. -/
def MemStorage.getEntry (st : MemStorage) (id : Int) : Option DiaryEntry :=
  st.entries.find? (fun e => (e.id : Int) == id)

/-- MemStorage.getEntryByShareId: linear scan for
`entry.shareId === shareId && entry.isShared`. -/
def MemStorage.getEntryByShareId (st : MemStorage) (shareId : String) :
    Option DiaryEntry :=
  st.entries.find? (fun e => e.shareId == some shareId && e.isShared)

/-- MemStorage.getEntriesByUserId: filter on `userId` equality, then a
stable sort by `createdAt` descending (comparator
`(a, b) => timeOf(b) - timeOf(a)`). -/
def MemStorage.getEntriesByUserId (st : MemStorage) (userId : String) :
    List DiaryEntry :=
  (st.entries.filter (fun e => e.userId == userId)).mergeSort
    (fun a b => b.createdAt ≤ a.createdAt)

/-- JavaScript `Map.set`: replace in place when the key is present,
append otherwise. -/
def mapSet : List DiaryEntry → Nat → DiaryEntry → List DiaryEntry
  | [], _, v => [v]
  | e :: es, k, v => if e.id == k then v :: es else e :: mapSet es k v

/-- MemStorage.updateEntrySharing (server/storage.ts lines 38-53):
not-found when the id is absent; otherwise replaces the entry with a copy
whose `isShared` is the given flag and whose `shareId` is
`shareId || entry.shareId`. -/
def MemStorage.updateEntrySharing (st : MemStorage) (id : Int)
    (isShared : Bool) (shareId : Option String) :
    Option DiaryEntry × MemStorage :=
  match st.entries.find? (fun e => (e.id : Int) == id) with
  | none => (none, st)
  | some entry =>
      let updatedEntry : DiaryEntry :=
        { entry with
          isShared := isShared
          shareId := jsStrOrOpt shareId entry.shareId }
      (some updatedEntry, ⟨mapSet st.entries entry.id updatedEntry, st.currentId⟩)

/-- MemStorage.deleteEntry: `this.entries.delete(id)` (unconditional;
the existence check lives in the route). -/
def MemStorage.deleteEntry (st : MemStorage) (id : Int) : MemStorage :=
  ⟨st.entries.eraseP (fun e => (e.id : Int) == id), st.currentId⟩

/-- The raw request body of POST /api/entries, projected onto the keys the
insert schema knows (zod object parsing ignores unknown keys).  Each field
is `none` when absent from the JSON body. -/
structure Submission where
  userId : Option JsonValue
  caption : Option JsonValue
  imageUrl : Option JsonValue
  location : Option JsonValue
  screenInfo : Option JsonValue
  shareId : Option JsonValue
  isShared : Option JsonValue
  captionText : Option JsonValue

/-- The output of a successful `insertEntrySchema.safeParse`
(shared/schema.ts: `createInsertSchema(diaryEntries).omit({ id, createdAt
}).extend({ captionText: z.string().optional() })`).  Per drizzle-zod, a
not-null column without a default is required (`userId`, `caption`,
`imageUrl` as strings, `screenInfo` as arbitrary JSON since the column is
jsonb), a nullable column is optional and nullable (`location` as
arbitrary JSON, `shareId` as a string), and a column with a default is
optional (`isShared`). -/
structure ValidSubmission where
  userId : String
  caption : String
  imageUrl : String
  location : Option JsonValue
  screenInfo : JsonValue
  shareId : Option (Option String)
  isShared : Option Bool
  captionText : Option String

/-- Parse of one required string field of the zod schema. -/
def zodReqString (name : String) (v : Option JsonValue) :
    Except String String :=
  match v with
  | none => .error (name ++ ": Required")
  | some (.str s) => .ok s
  | some _ => .error (name ++ ": Expected string")

/-- Parse of one required jsonb field: drizzle-zod types a jsonb column as
arbitrary JSON, so any present value (including null) passes. -/
def zodReqJson (name : String) (v : Option JsonValue) :
    Except String JsonValue :=
  match v with
  | none => .error (name ++ ": Required")
  | some j => .ok j

/-- Parse of the optional nullable string field `shareId`. -/
def zodOptNullableString (name : String) (v : Option JsonValue) :
    Except String (Option (Option String)) :=
  match v with
  | none => .ok none
  | some .null => .ok (some none)
  | some (.str s) => .ok (some (some s))
  | some _ => .error (name ++ ": Expected string")

/-- Parse of the optional boolean field `isShared`. -/
def zodOptBool (name : String) (v : Option JsonValue) :
    Except String (Option Bool) :=
  match v with
  | none => .ok none
  | some (.bool b) => .ok (some b)
  | some _ => .error (name ++ ": Expected boolean")

/-- Parse of the optional string field `captionText`. -/
def zodOptString (name : String) (v : Option JsonValue) :
    Except String (Option String) :=
  match v with
  | none => .ok none
  | some (.str s) => .ok (some s)
  | some _ => .error (name ++ ": Expected string")

/-- Error contribution of one field parse. -/
def errList {α : Type} : Except String α → List String
  | .error e => [e]
  | .ok _ => []

/-- insertEntrySchema.safeParse: validates every field of the body against
the schema, collecting one issue per failing field in shape order
(`location` never fails: the jsonb column admits any JSON value and the
field is optional). -/
def insertEntrySchemaParse (b : Submission) :
    Except (List String) ValidSubmission :=
  match zodReqString "userId" b.userId, zodReqString "caption" b.caption,
      zodReqString "imageUrl" b.imageUrl, zodReqJson "screenInfo" b.screenInfo,
      zodOptNullableString "shareId" b.shareId, zodOptBool "isShared" b.isShared,
      zodOptString "captionText" b.captionText with
  | .ok u, .ok c, .ok img, .ok si, .ok sid, .ok ish, .ok ct =>
      .ok ⟨u, c, img, b.location, si, sid, ish, ct⟩
  | u, c, img, si, sid, ish, ct =>
      .error (errList u ++ errList c ++ errList img ++ errList si ++
        errList sid ++ errList ish ++ errList ct)

/-- Numeric value of a decimal digit list, most significant first. -/
def digitsToNat (base : Nat) : List Nat → Nat
  | [] => 0
  | d :: ds => List.foldl (fun acc d => acc * base + d) d ds

/-- Value of a hexadecimal digit character, if it is one. -/
def hexDigitValue (c : Char) : Option Nat :=
  if c.isDigit then some (c.toNat - 48)
  else if 97 ≤ c.toNat && c.toNat ≤ 102 then some (c.toNat - 87)
  else if 65 ≤ c.toNat && c.toNat ≤ 70 then some (c.toNat - 55)
  else none

/-- JavaScript `parseInt(s)` with no radix argument, `none` standing for
NaN: skip leading whitespace, read an optional sign, switch to base 16
after a `0x`/`0X` prefix, then read the longest run of digits, ignoring
everything after it; no digits means NaN.  (JavaScript returns the value
as a float, exact for the magnitudes a route id can take.) -/
def jsParseInt (s : String) : Option Int :=
  let cs := s.toList.dropWhile (·.isWhitespace)
  let signAndRest : Int × List Char :=
    match cs with
    | '-' :: rest => (-1, rest)
    | '+' :: rest => (1, rest)
    | rest => (1, rest)
  let sign := signAndRest.1
  match signAndRest.2 with
  | '0' :: 'x' :: rest =>
      let ds := (rest.map hexDigitValue).takeWhile Option.isSome
      if ds.isEmpty then none
      else some (sign * (digitsToNat 16 (ds.map (fun d => d.getD 0)) : Int))
  | '0' :: 'X' :: rest =>
      let ds := (rest.map hexDigitValue).takeWhile Option.isSome
      if ds.isEmpty then none
      else some (sign * (digitsToNat 16 (ds.map (fun d => d.getD 0)) : Int))
  | rest =>
      let ds := rest.takeWhile Char.isDigit
      if ds.isEmpty then none
      else some (sign * (digitsToNat 10 (ds.map (fun c => c.toNat - 48)) : Int))

/-- Response of GET /api/entries/:id. -/
inductive GetEntryResponse where
  | invalidId
  | notFound
  | ok (e : DiaryEntry)

/-- HTTP status of a GET /api/entries/:id response. -/
def GetEntryResponse.status : GetEntryResponse → Nat
  | .invalidId => 400
  | .notFound => 404
  | .ok _ => 200

/-- Route handler GET /api/entries/:id (server routes): 400 when
`parseInt` of the path parameter is NaN, 404 when the store has no such
id, 200 with the entry otherwise. -/
def getEntryRoute (st : MemStorage) (idParam : String) : GetEntryResponse :=
  match jsParseInt idParam with
  | none => .invalidId
  | some entryId =>
      match st.getEntry entryId with
      | none => .notFound
      | some e => .ok e

/-- Response of POST /api/entries. -/
inductive CreateEntryResponse where
  | missingUserId
  | invalidData (errors : List String)
  | created (e : DiaryEntry)

/-- HTTP status of a POST /api/entries response. -/
def CreateEntryResponse.status : CreateEntryResponse → Nat
  | .missingUserId => 400
  | .invalidData _ => 400
  | .created _ => 201

/-- Caption resolution of the POST /api/entries handler:
`if (!caption && captionText) caption = captionText else if (!caption)
caption = 'My travel moment'`. -/
def resolveCaption (caption : String) (captionText : Option String) : String :=
  if caption == "" then
    match captionText with
    | some t => if t == "" then "My travel moment" else t
    | none => "My travel moment"
  else caption

/-- Route handler POST /api/entries: rejects a falsy `userId` up front,
then runs `insertEntrySchema.safeParse` and answers 400 with the issue
list on failure; on success resolves the caption (falling back to
`captionText`, then to the placeholder `'My travel moment'`) and hands
the whole validated record to `MemStorage.createEntry`. -/
def postEntriesRoute (st : MemStorage) (now : Nat) (body : Submission) :
    CreateEntryResponse × MemStorage :=
  if !(jsTruthy body.userId) then (.missingUserId, st)
  else
    match insertEntrySchemaParse body with
    | .error errs => (.invalidData errs, st)
    | .ok v =>
        let caption := resolveCaption v.caption v.captionText
        let res := st.createEntry now
          { userId := v.userId
            caption := some caption
            imageUrl := some v.imageUrl
            location := v.location
            screenInfo := some v.screenInfo
            shareId := v.shareId
            isShared := v.isShared
            captionText := v.captionText }
        (.created res.1, res.2)

/-- Response of DELETE /api/entries/:id. -/
inductive DeleteEntryResponse where
  | invalidId
  | notFound
  | deleted

/-- HTTP status of a DELETE /api/entries/:id response. -/
def DeleteEntryResponse.status : DeleteEntryResponse → Nat
  | .invalidId => 400
  | .notFound => 404
  | .deleted => 200

/-- Route handler DELETE /api/entries/:id: 400 on a NaN id, 404 when
`getEntry` misses, otherwise `deleteEntry` then 200. -/
def deleteEntryRoute (st : MemStorage) (idParam : String) :
    DeleteEntryResponse × MemStorage :=
  match jsParseInt idParam with
  | none => (.invalidId, st)
  | some entryId =>
      match st.getEntry entryId with
      | none => (.notFound, st)
      | some _ => (.deleted, st.deleteEntry entryId)

/-- Response of POST /api/entries/:id/share.  The success payload carries
`updatedEntry.shareId` (a nullable string in the record type). -/
inductive ShareResponse where
  | invalidId
  | notFound
  | updateFailed
  | shared (shareId : Option String)

/-- Route handler POST /api/entries/:id/share: after the id and existence
checks, computes `shareId = entry.shareId || uuidv4()` and applies
`updateEntrySharing(id, true, shareId)`.  The fresh uuid draw is threaded
in as the `freshId` argument (uuidv4 yields a nonempty random token). -/
def shareEntryRoute (st : MemStorage) (idParam : String) (freshId : String) :
    ShareResponse × MemStorage :=
  match jsParseInt idParam with
  | none => (.invalidId, st)
  | some entryId =>
      match st.getEntry entryId with
      | none => (.notFound, st)
      | some entry =>
          let shareId := jsStrOr entry.shareId freshId
          let res := st.updateEntrySharing entryId true (some shareId)
          match res.1 with
          | none => (.updateFailed, res.2)
          | some updatedEntry => (.shared updatedEntry.shareId, res.2)

/-- Response of POST /api/entries/:id/unshare. -/
inductive UnshareResponse where
  | invalidId
  | notFound
  | updateFailed
  | unshared

/-- Route handler POST /api/entries/:id/unshare: after the id and
existence checks, applies `updateEntrySharing(id, false)` (no share id
argument). -/
def unshareEntryRoute (st : MemStorage) (idParam : String) :
    UnshareResponse × MemStorage :=
  match jsParseInt idParam with
  | none => (.invalidId, st)
  | some entryId =>
      match st.getEntry entryId with
      | none => (.notFound, st)
      | some _ =>
          let res := st.updateEntrySharing entryId false none
          match res.1 with
          | none => (.updateFailed, res.2)
          | some _ => (.unshared, res.2)

/-- Output dimensions of resizeAndCompressImage
(client/src/lib/supabase.ts lines 42-49): when the image width exceeds
`maxWidth`, scale the width down to `maxWidth` and the height by the same
factor; otherwise keep both dimensions.  Dimensions are rationals (the
source computes in floats and the canvas rounds to integer pixels; the
claims at issue concern the exact arithmetic of this formula). -/
def resizeDims (width height maxWidth : Rat) : Rat × Rat :=
  if width > maxWidth then (maxWidth, height * maxWidth / width)
  else (width, height)

/-- Sequential creations: runs `MemStorage.createEntry` once per element
of `subs` (each with its clock value) and lists the assigned ids in call
order. -/
def runCreates : MemStorage → List (Nat × StorageEntryInput) →
    List Nat × MemStorage
  | st, [] => ([], st)
  | st, (now, e) :: rest =>
      let res := st.createEntry now e
      let rec' := runCreates res.2 rest
      (res.1.id :: rec'.1, rec'.2)

/-- The scenario submission of the claim: a non-empty userId and a
screenInfo, with caption, captionText and imageUrl all absent. -/
def scenarioSubmission : Submission :=
  { userId := some (.str "u1")
    caption := none
    imageUrl := none
    location := none
    screenInfo := some (.obj [("width", .num 1080), ("height", .num 1920),
      ("orientation", .str "Portrait")])
    shareId := none
    isShared := none
    captionText := none }

/-- A validating submission whose caption is the empty string and whose
captionText is a non-empty string. -/
def emptyCaptionSubmission : Submission :=
  { userId := some (.str "u1")
    caption := some (.str "")
    imageUrl := some (.str "img")
    location := none
    screenInfo := some (.obj [("width", .num 1080)])
    shareId := none
    isShared := none
    captionText := some (.str "From text") }

/-- The parse of `emptyCaptionSubmission`. -/
def emptyCaptionValid : ValidSubmission :=
  { userId := "u1"
    caption := ""
    imageUrl := "img"
    location := none
    screenInfo := .obj [("width", .num 1080)]
    shareId := none
    isShared := none
    captionText := some "From text" }

/-- The entry the service creates from `emptyCaptionSubmission` on the
fresh store at clock 0. -/
def emptyCaptionEntry : DiaryEntry :=
  { id := 1
    userId := "u1"
    caption := "From text"
    imageUrl := "img"
    location := none
    screenInfo := ⟨.num 1080, .num 0, .str "unknown"⟩
    createdAt := 0
    shareId := none
    isShared := false }

/-- A submission whose location is present but is a bare string, hence
not deserializable to two floats. -/
def malformedLocationSubmission : Submission :=
  { userId := some (.str "u1")
    caption := some (.str "hello")
    imageUrl := some (.str "img")
    location := some (.str "oops")
    screenInfo := some (.obj [("width", .num 1080)])
    shareId := none
    isShared := none
    captionText := none }

/-- The entry the service persists for `malformedLocationSubmission` on
the fresh store at clock 7. -/
def malformedLocationEntry : DiaryEntry :=
  { id := 1
    userId := "u1"
    caption := "hello"
    imageUrl := "img"
    location := none
    screenInfo := ⟨.num 1080, .num 0, .str "unknown"⟩
    createdAt := 7
    shareId := none
    isShared := false }

/-- A storage-level input whose location carries numeric lat and lng. -/
def sampleLocationInput : StorageEntryInput :=
  { userId := "u1"
    caption := some "hi"
    imageUrl := some "img"
    location := some (.obj [("lat", .num 35), ("lng", .num 138)])
    screenInfo := none
    shareId := none
    isShared := none
    captionText := none }

/-- A concrete stored entry that has never been shared. -/
def sampleEntry : DiaryEntry :=
  { id := 1
    userId := "u1"
    caption := "c"
    imageUrl := "i"
    location := none
    screenInfo := ⟨.num 0, .num 0, .str "unknown"⟩
    createdAt := 0
    shareId := none
    isShared := false }

/-- A store holding only `sampleEntry`. -/
def sampleStore : MemStorage := ⟨[sampleEntry], 2⟩

/-- An entry with sharing enabled under the token "tok". -/
def sharedEntry : DiaryEntry :=
  { id := 2
    userId := "u2"
    caption := "c"
    imageUrl := "i"
    location := none
    screenInfo := ⟨.num 0, .num 0, .str "unknown"⟩
    createdAt := 5
    shareId := some "tok"
    isShared := true }

/-- A store holding only `sharedEntry`. -/
def sharedStore : MemStorage := ⟨[sharedEntry], 3⟩

/-! Helper lemmas about the storage primitives. -/

/-- Replacing via `Map.set` an entry found under a key keeps the first
match of the key lookup pointed at the replacement. -/
theorem find?_mapSet (l : List DiaryEntry) (i : Int) (e u : DiaryEntry)
    (hfind : l.find? (fun x => (x.id : Int) == i) = some e)
    (hid : u.id = e.id) :
    (mapSet l e.id u).find? (fun x => (x.id : Int) == i) = some u := by
  induction l with
  | nil => simp at hfind
  | cons a l ih =>
      by_cases hpa : ((a.id : Int) == i) = true
      · rw [List.find?_cons_of_pos (p := fun (x : DiaryEntry) => (x.id : Int) == i) _ hpa]
          at hfind
        injection hfind with hae
        subst hae
        simp only [mapSet, beq_self_eq_true, if_true]
        have hpu : ((u.id : Int) == i) = true := by
          rw [hid]; exact hpa
        exact List.find?_cons_of_pos (p := fun (x : DiaryEntry) => (x.id : Int) == i) _ hpu
      · rw [List.find?_cons_of_neg (p := fun (x : DiaryEntry) => (x.id : Int) == i) _ hpa]
          at hfind
        have hae : (a.id == e.id) = false := by
          rw [Bool.eq_false_iff]
          intro hcontra
          apply hpa
          have hids : a.id = e.id := by simpa using hcontra
          have hpe := List.find?_some hfind
          simpa [hids] using hpe
        simp only [mapSet, hae, Bool.false_eq_true, if_false]
        rw [List.find?_cons_of_neg (p := fun (x : DiaryEntry) => (x.id : Int) == i) _ hpa]
        exact ih hfind

/-- With pairwise-distinct ids and a predicate that determines the id,
erasing the match leaves no further match. -/
theorem find?_eraseP_eq_none {l : List DiaryEntry} {p : DiaryEntry → Bool}
    (hn : (l.map (fun e => e.id)).Nodup)
    (hp : ∀ x y, p x = true → p y = true → x.id = y.id) :
    (l.eraseP p).find? p = none := by
  induction l with
  | nil => simp
  | cons a l ih =>
      rw [List.map_cons, List.nodup_cons] at hn
      by_cases hpa : p a = true
      · rw [List.eraseP_cons_of_pos hpa]
        rw [List.find?_eq_none]
        intro x hx hpx
        have hxa : x.id = a.id := hp x a hpx hpa
        exact hn.1 (hxa ▸ List.mem_map_of_mem (fun e => e.id) hx)
      · rw [List.eraseP_cons_of_neg (by simpa using hpa)]
        rw [List.find?_cons_of_neg _ hpa]
        exact ih hn.2

/-- The caption resolved by the POST /api/entries handler is never the
empty string. -/
theorem resolveCaption_ne_empty (c : String) (ct : Option String) :
    resolveCaption c ct ≠ "" := by
  unfold resolveCaption
  by_cases hc : c = ""
  · simp only [hc, beq_self_eq_true, if_true]
    match ct with
    | none => simp
    | some t =>
        by_cases ht : t = ""
        · simp [ht]
        · simp [ht]
  · simp [hc]

/-! Claim theorems. -/

/-- C10: every entry returned by `MemStorage.createEntry` has
`isShared = false` and `shareId = null`, regardless of any `isShared` or
`shareId` values present in the submission (the quantified `entryData`
carries both fields and the result ignores them); a share token can only
be introduced later by the sharing update. -/
theorem createEntry_starts_unshared (st : MemStorage) (now : Nat)
    (entryData : StorageEntryInput) :
    (st.createEntry now entryData).1.shareId = none ∧
    (st.createEntry now entryData).1.isShared = false :=
  ⟨rfl, rfl⟩

/-- C4: `getEntryByShareId` returns an entry exactly when some stored
entry has `shareId` equal to the token and `isShared = true`; otherwise
it returns the single not-found value, with no distinction between an
unknown token and a matching token on an unshared entry. -/
theorem getEntryByShareId_found_iff (st : MemStorage) (token : String) :
    match st.getEntryByShareId token with
    | some e => e ∈ st.entries ∧ e.shareId = some token ∧ e.isShared = true
    | none => ∀ e ∈ st.entries,
        ¬(e.shareId = some token ∧ e.isShared = true) := by
  unfold MemStorage.getEntryByShareId
  cases hf : st.entries.find? (fun e => e.shareId == some token && e.isShared) with
  | none =>
      intro e he hcontra
      have hne := List.find?_eq_none.mp hf e he
      simp [hcontra.1, hcontra.2] at hne
  | some e =>
      have hmem := List.mem_of_find?_eq_some hf
      have hpe := List.find?_some hf
      simp only [Bool.and_eq_true, beq_iff_eq] at hpe
      exact ⟨hmem, hpe.1, hpe.2⟩

/-- C2 counterexample: a 600x2000 image passed to the resize step with
the default bound 800 keeps both dimensions, so the larger dimension
(2000) exceeds the bound: only the width is ever checked. -/
theorem resizeDims_counterexample :
    resizeDims 600 2000 800 = (600, 2000) ∧
    max (600 : Rat) 2000 = 2000 ∧ (2000 : Rat) > 800 := by
  refine ⟨?_, ?_, by norm_num⟩
  · unfold resizeDims
    norm_num
  · norm_num

/-- C2 amended: the resize step preserves the aspect ratio exactly and
bounds the output width by `maxWidth`; an image whose width is already
within the bound keeps both dimensions unchanged (even when its height
exceeds the bound, which is never checked). -/
theorem resizeDims_width_bounded (w h maxW : Rat) (hw : 0 < w) :
    (resizeDims w h maxW).1 * h = (resizeDims w h maxW).2 * w ∧
    (resizeDims w h maxW).1 ≤ maxW ∧
    (w ≤ maxW → resizeDims w h maxW = (w, h)) := by
  unfold resizeDims
  split_ifs with hcase
  · refine ⟨?_, le_refl _, ?_⟩
    · have hw0 : w ≠ 0 := ne_of_gt hw
      field_simp
      ring
    · intro hle
      exact absurd hcase (not_lt_of_le hle)
  · exact ⟨mul_comm w h, le_of_not_lt hcase, fun _ => rfl⟩

/-- C2 witness: the amended resize theorem applied to a 1600x1000 image
with bound 800. -/
theorem resizeDims_width_bounded_witness :
    (0 : Rat) < 1600 ∧
    ((resizeDims 1600 1000 800).1 * 1000 = (resizeDims 1600 1000 800).2 * 1600 ∧
     (resizeDims 1600 1000 800).1 ≤ 800 ∧
     ((1600 : Rat) ≤ 800 → resizeDims 1600 1000 800 = (1600, 1000))) :=
  ⟨by norm_num, resizeDims_width_bounded 1600 1000 800 (by norm_num)⟩

/-- C1 counterexample: the claimed scenario does not create an entry at
all.  The insert schema derives `caption` and `imageUrl` as required
fields (not-null columns without defaults), so the submission with both
absent is rejected with a 400 validation error and the store is
untouched; the storage-level placeholders are never reached. -/
theorem createEntry_scenario_rejected :
    (postEntriesRoute MemStorage.init 0 scenarioSubmission).1 =
      CreateEntryResponse.invalidData
        ["caption: Required", "imageUrl: Required"] ∧
    (postEntriesRoute MemStorage.init 0 scenarioSubmission).2 =
      MemStorage.init ∧
    (CreateEntryResponse.invalidData
        ["caption: Required", "imageUrl: Required"]).status = 400 :=
  ⟨rfl, rfl, rfl⟩

/-- C1 amended: `caption` and `imageUrl` are required by validation (a
validated submission always carries both as strings), so a submission
with caption, captionText and imageUrl all absent fails validation and
creates nothing.  The caption fallback operates on the empty string: an
entry created through the service carries `resolveCaption caption
captionText`, which is `captionText` when the caption is empty and
captionText is a non-empty string, and the route placeholder
`'My travel moment'` when both are empty or captionText is absent (a
non-empty caption is kept as is).  The storage placeholder
`'My travel memory'` and the 1x1 placeholder image apply only when the
storage layer is called directly with an absent caption / image. -/
theorem createEntry_caption_defaults :
    (∀ b v, insertEntrySchemaParse b = Except.ok v →
        b.caption = some (.str v.caption) ∧
        b.imageUrl = some (.str v.imageUrl)) ∧
    (∀ st now b v e, insertEntrySchemaParse b = Except.ok v →
        (postEntriesRoute st now b).1 = CreateEntryResponse.created e →
        e.caption = resolveCaption v.caption v.captionText) ∧
    (∀ t, ¬t = "" → resolveCaption "" (some t) = t) ∧
    resolveCaption "" none = "My travel moment" ∧
    resolveCaption "" (some "") = "My travel moment" ∧
    (∀ c ct, ¬c = "" → resolveCaption c ct = c) ∧
    (∀ (st : MemStorage) (now : Nat) (input : StorageEntryInput),
        input.caption = none → input.imageUrl = none →
        (st.createEntry now input).1.caption = "My travel memory" ∧
        (st.createEntry now input).1.imageUrl = placeholderImage) := by
  refine ⟨?_, ?_, ?_, rfl, rfl, ?_, ?_⟩
  · intro b v h
    unfold insertEntrySchemaParse at h
    split at h
    · rename_i u c img si sid ish ct hu hc himg hsi hsid hish hct
      injection h with hv
      subst hv
      constructor
      · cases hcap : b.caption with
        | none => rw [hcap] at hc; simp [zodReqString] at hc
        | some j =>
            cases j <;> rw [hcap] at hc <;> simp [zodReqString] at hc
            · simp [hc]
      · cases himgb : b.imageUrl with
        | none => rw [himgb] at himg; simp [zodReqString] at himg
        | some j =>
            cases j <;> rw [himgb] at himg <;> simp [zodReqString] at himg
            · simp [himg]
    · exact absurd h (by simp)
  · intro st now b v e hv h
    unfold postEntriesRoute at h
    cases hu : jsTruthy b.userId with
    | false => rw [hu] at h; simp at h
    | true =>
        rw [hu] at h
        simp only [Bool.not_true, Bool.false_eq_true, if_false] at h
        rw [hv] at h
        injection h with he
        have hne := resolveCaption_ne_empty v.caption v.captionText
        rw [← he]
        simp [MemStorage.createEntry, jsStrOr, hne]
  · intro t ht; simp [resolveCaption, ht]
  · intro c ct hc; simp [resolveCaption, hc]
  · intro st now input hc hi
    constructor <;> simp [MemStorage.createEntry, jsStrOr, hc, hi]

/-- C1 witness: the caption-defaulting theorem applied to a concrete
submission with empty caption and captionText "From text". -/
theorem createEntry_caption_defaults_witness :
    insertEntrySchemaParse emptyCaptionSubmission =
      Except.ok emptyCaptionValid ∧
    (postEntriesRoute MemStorage.init 0 emptyCaptionSubmission).1 =
      CreateEntryResponse.created emptyCaptionEntry ∧
    emptyCaptionEntry.caption =
      resolveCaption emptyCaptionValid.caption emptyCaptionValid.captionText :=
  ⟨rfl, rfl, createEntry_caption_defaults.2.1 MemStorage.init 0
    emptyCaptionSubmission emptyCaptionValid emptyCaptionEntry rfl rfl⟩

/-- C5 counterexample: a submission whose location is the string "oops"
passes validation (the jsonb column is typed as arbitrary JSON), the
service answers 201 created rather than a validation error, and the
entry is persisted with the malformed location silently normalized to
null. -/
theorem createEntry_malformed_location_accepted :
    (postEntriesRoute MemStorage.init 7 malformedLocationSubmission).1 =
      CreateEntryResponse.created malformedLocationEntry ∧
    malformedLocationEntry.location = none ∧
    (postEntriesRoute MemStorage.init 7 malformedLocationSubmission).2.entries =
      [malformedLocationEntry] :=
  ⟨rfl, rfl, rfl⟩

/-- C5 amended: the value of `location` never affects validation (any
JSON value in place of it leaves the parse result otherwise unchanged);
the storage layer persists the entry anyway, normalizing a location that
is not a truthy object-typed value with `lat` and `lng` properties to
null; a location object with numeric `lat` and `lng` fields is stored as
exactly those two numbers. -/
theorem location_validation_passthrough :
    (∀ b loc v, insertEntrySchemaParse b = Except.ok v →
        insertEntrySchemaParse { b with location := loc } =
          Except.ok { v with location := loc }) ∧
    (∀ (st : MemStorage) (now : Nat) (input : StorageEntryInput)
        (j : JsonValue), input.location = some j →
        (j.truthy && j.isObjectType && j.hasField "lat" &&
          j.hasField "lng") = false →
        (st.createEntry now input).1.location = none) ∧
    (∀ (st : MemStorage) (now : Nat) (input : StorageEntryInput)
        (a c : Rat),
        input.location = some (.obj [("lat", .num a), ("lng", .num c)]) →
        (st.createEntry now input).1.location =
          some ⟨.val a, .val c⟩) := by
  refine ⟨?_, ?_, ?_⟩
  · intro b loc v h
    obtain ⟨bu, bc, bi, bl, bs, bsh, bis, bct⟩ := b
    obtain ⟨vu, vc, vi, vl, vs, vsh, vis, vct⟩ := v
    unfold insertEntrySchemaParse at h ⊢
    simp only at h ⊢
    split at h
    · simp only [Except.ok.injEq, ValidSubmission.mk.injEq] at h ⊢
      obtain ⟨h1, h2, h3, h4, h5, h6, h7, h8⟩ := h
      subst_vars
      simp
    · exact absurd h (by simp)
  · intro st now input j hj hcond
    unfold MemStorage.createEntry
    rw [hj]
    simp [hcond]
  · intro st now input a c hj
    unfold MemStorage.createEntry
    rw [hj]
    simp [JsonValue.truthy, JsonValue.isObjectType, JsonValue.hasField,
      JsonValue.getField, jsNumber]

/-- C5 witness: the passthrough theorem applied to a concrete valid
location object, whose two numbers are stored exactly. -/
theorem location_validation_passthrough_witness :
    (MemStorage.init.createEntry 3 sampleLocationInput).1.location =
      some ⟨.val 35, .val 138⟩ :=
  location_validation_passthrough.2.2 MemStorage.init 3
    sampleLocationInput 35 138 rfl

/-- C6 counterexample: the id "-5" does not parse as a positive integer,
yet the route answers 404 not-found (parseInt accepts the sign, so the
400 branch is not taken); likewise for "0".  Only an id with no parseable
leading integer at all reaches the 400 branch. -/
theorem getEntry_nonpositive_id_notFound :
    jsParseInt "-5" = some (-5) ∧
    getEntryRoute MemStorage.init "-5" = GetEntryResponse.notFound ∧
    getEntryRoute MemStorage.init "0" = GetEntryResponse.notFound ∧
    GetEntryResponse.notFound.status = 404 ∧
    GetEntryResponse.invalidId.status = 400 :=
  ⟨rfl, rfl, rfl, rfl, rfl⟩

/-- C6 amended: an id whose `parseInt` is NaN (no parseable leading
integer) yields the 400 bad-request response, and a parseable id (whether
positive or not) with no matching entry yields the 404 not-found
response; the two signals are distinct.  The concrete scenario ids
behave as specified: "abc" is a 400 on every store. -/
theorem getEntryRoute_status_semantics :
    (∀ (st : MemStorage) (s : String), jsParseInt s = none →
        getEntryRoute st s = GetEntryResponse.invalidId) ∧
    (∀ (st : MemStorage) (s : String) (i : Int), jsParseInt s = some i →
        st.getEntry i = none →
        getEntryRoute st s = GetEntryResponse.notFound) ∧
    (∀ (st : MemStorage) (s : String) (i : Int) (e : DiaryEntry),
        jsParseInt s = some i → st.getEntry i = some e →
        getEntryRoute st s = GetEntryResponse.ok e) ∧
    (∀ st : MemStorage, getEntryRoute st "abc" = GetEntryResponse.invalidId) ∧
    GetEntryResponse.invalidId.status = 400 ∧
    GetEntryResponse.notFound.status = 404 := by
  refine ⟨?_, ?_, ?_, ?_, rfl, rfl⟩
  · intro st s hp
    unfold getEntryRoute
    rw [hp]
  · intro st s i hp hg
    unfold getEntryRoute
    rw [hp]
    simp [hg]
  · intro st s i e hp hg
    unfold getEntryRoute
    rw [hp]
    simp [hg]
  · intro st
    unfold getEntryRoute
    have habc : jsParseInt "abc" = none := rfl
    rw [habc]

/-- C6 witness: the status-semantics theorem applied to the id "9999" on
the empty store. -/
theorem getEntryRoute_status_semantics_witness :
    jsParseInt "9999" = some 9999 ∧
    MemStorage.init.getEntry 9999 = none ∧
    getEntryRoute MemStorage.init "9999" = GetEntryResponse.notFound :=
  ⟨rfl, rfl,
    getEntryRoute_status_semantics.2.1 MemStorage.init "9999" 9999 rfl rfl⟩

/-- C3: the share-token lifecycle.  Unsharing (storage level and route
level) clears `isShared` only, leaving `shareId` untouched; re-enabling
sharing reuses an existing (nonempty) `shareId`; the fresh uuid is used
only when the entry has no `shareId` yet. -/
theorem shareId_lifecycle :
    (∀ (st : MemStorage) (i : Int) (e : DiaryEntry),
        st.entries.find? (fun x => (x.id : Int) == i) = some e →
        (st.updateEntrySharing i false none).1 =
          some { e with isShared := false }) ∧
    (∀ (st : MemStorage) (idParam freshId : String) (i : Int)
        (e : DiaryEntry) (s : String),
        jsParseInt idParam = some i → st.getEntry i = some e →
        e.shareId = some s → ¬s = "" →
        (shareEntryRoute st idParam freshId).1 =
          ShareResponse.shared (some s) ∧
        ((shareEntryRoute st idParam freshId).2).getEntry i =
          some { e with isShared := true, shareId := some s }) ∧
    (∀ (st : MemStorage) (idParam freshId : String) (i : Int)
        (e : DiaryEntry),
        jsParseInt idParam = some i → st.getEntry i = some e →
        e.shareId = none → ¬freshId = "" →
        (shareEntryRoute st idParam freshId).1 =
          ShareResponse.shared (some freshId) ∧
        ((shareEntryRoute st idParam freshId).2).getEntry i =
          some { e with isShared := true, shareId := some freshId }) ∧
    (∀ (st : MemStorage) (idParam : String) (i : Int) (e : DiaryEntry),
        jsParseInt idParam = some i → st.getEntry i = some e →
        (unshareEntryRoute st idParam).1 = UnshareResponse.unshared ∧
        ((unshareEntryRoute st idParam).2).getEntry i =
          some { e with isShared := false }) := by
  have hupd : ∀ (st : MemStorage) (i : Int) (e : DiaryEntry)
      (b : Bool) (sid : Option String),
      st.entries.find? (fun x => (x.id : Int) == i) = some e →
      st.updateEntrySharing i b sid =
        (some { e with isShared := b, shareId := jsStrOrOpt sid e.shareId },
         ⟨mapSet st.entries e.id
            { e with isShared := b, shareId := jsStrOrOpt sid e.shareId },
          st.currentId⟩) := by
    intro st i e b sid hfind
    unfold MemStorage.updateEntrySharing
    rw [hfind]
  have hget : ∀ (l : List DiaryEntry) (c : Nat) (i : Int),
      MemStorage.getEntry ⟨l, c⟩ i = l.find? (fun x => (x.id : Int) == i) :=
    fun _ _ _ => rfl
  refine ⟨?_, ?_, ?_, ?_⟩
  · intro st i e hfind
    rw [hupd st i e false none hfind]
    simp [jsStrOrOpt]
  · intro st idParam freshId i e s hp hg hs hsne
    have hfind : st.entries.find? (fun x => (x.id : Int) == i) = some e := hg
    have hshare : jsStrOr e.shareId freshId = s := by
      rw [hs]; simp [jsStrOr, hsne]
    have hsid : jsStrOrOpt (some s) e.shareId = some s := by
      simp [jsStrOrOpt, hsne]
    unfold shareEntryRoute
    rw [hp]
    simp only [hg, hshare, hupd st i e true (some s) hfind, hsid]
    constructor
    · trivial
    · rw [hget]
      exact find?_mapSet st.entries i e _ hfind rfl
  · intro st idParam freshId i e hp hg hs hfne
    have hfind : st.entries.find? (fun x => (x.id : Int) == i) = some e := hg
    have hshare : jsStrOr e.shareId freshId = freshId := by
      rw [hs]; simp [jsStrOr]
    have hsid : jsStrOrOpt (some freshId) e.shareId = some freshId := by
      simp [jsStrOrOpt, hfne]
    unfold shareEntryRoute
    rw [hp]
    simp only [hg, hshare, hupd st i e true (some freshId) hfind, hsid]
    constructor
    · trivial
    · rw [hget]
      exact find?_mapSet st.entries i e _ hfind rfl
  · intro st idParam i e hp hg
    have hfind : st.entries.find? (fun x => (x.id : Int) == i) = some e := hg
    unfold unshareEntryRoute
    rw [hp]
    simp only [hg, hupd st i e false none hfind]
    have hsid : jsStrOrOpt none e.shareId = e.shareId := rfl
    rw [hsid]
    constructor
    · trivial
    · rw [hget]
      exact find?_mapSet st.entries i e _ hfind rfl

/-- C3 witness: the lifecycle theorem applied to `sampleStore`: sharing
entry 1 with the fresh token "token-1" installs exactly that token. -/
theorem shareId_lifecycle_witness :
    (shareEntryRoute sampleStore "1" "token-1").1 =
      ShareResponse.shared (some "token-1") ∧
    ((shareEntryRoute sampleStore "1" "token-1").2).getEntry 1 =
      some { sampleEntry with isShared := true, shareId := some "token-1" } :=
  shareId_lifecycle.2.2.1 sampleStore "1" "token-1" 1 sampleEntry rfl rfl rfl
    (by decide)

/-- C9: DELETE /api/entries/:id answers 404 and leaves the store intact
when no entry with the parsed id exists; when the entry exists (under the
reachable-state invariant that stored ids are pairwise distinct) it
answers 200, after which fetching the id answers 404 and a second delete
of the same id answers 404 without changing the store further. -/
theorem deleteEntry_semantics :
    (∀ (st : MemStorage) (idParam : String) (i : Int),
        jsParseInt idParam = some i → st.getEntry i = none →
        deleteEntryRoute st idParam = (DeleteEntryResponse.notFound, st)) ∧
    (∀ (st : MemStorage) (idParam : String) (i : Int) (e : DiaryEntry),
        jsParseInt idParam = some i → st.getEntry i = some e →
        (st.entries.map (fun x => x.id)).Nodup →
        (deleteEntryRoute st idParam).1 = DeleteEntryResponse.deleted ∧
        ((deleteEntryRoute st idParam).2).getEntry i = none ∧
        getEntryRoute (deleteEntryRoute st idParam).2 idParam =
          GetEntryResponse.notFound ∧
        deleteEntryRoute (deleteEntryRoute st idParam).2 idParam =
          (DeleteEntryResponse.notFound, (deleteEntryRoute st idParam).2)) := by
  have hpdet : ∀ (i : Int) (x y : DiaryEntry),
      ((x.id : Int) == i) = true → ((y.id : Int) == i) = true → x.id = y.id := by
    intro i x y hx hy
    have hx' : (x.id : Int) = i := by simpa using hx
    have hy' : (y.id : Int) = i := by simpa using hy
    omega
  constructor
  · intro st idParam i hp hg
    unfold deleteEntryRoute
    rw [hp]
    simp [hg]
  · intro st idParam i e hp hg hnodup
    have hroute : deleteEntryRoute st idParam =
        (DeleteEntryResponse.deleted, st.deleteEntry i) := by
      unfold deleteEntryRoute
      rw [hp]
      simp [hg]
    have hgone : (st.deleteEntry i).getEntry i = none := by
      unfold MemStorage.deleteEntry MemStorage.getEntry
      exact find?_eraseP_eq_none hnodup (hpdet i)
    refine ⟨by rw [hroute], by rw [hroute]; exact hgone, ?_, ?_⟩
    · rw [hroute]
      unfold getEntryRoute
      rw [hp]
      simp [hgone]
    · rw [hroute]
      unfold deleteEntryRoute
      rw [hp]
      simp [hgone]

/-- C9 witness: the delete semantics applied to `sampleStore` and the id
"1": the delete succeeds, and the second delete misses. -/
theorem deleteEntry_semantics_witness :
    (deleteEntryRoute sampleStore "1").1 = DeleteEntryResponse.deleted ∧
    ((deleteEntryRoute sampleStore "1").2).getEntry 1 = none ∧
    getEntryRoute (deleteEntryRoute sampleStore "1").2 "1" =
      GetEntryResponse.notFound ∧
    deleteEntryRoute (deleteEntryRoute sampleStore "1").2 "1" =
      (DeleteEntryResponse.notFound, (deleteEntryRoute sampleStore "1").2) :=
  deleteEntry_semantics.2 sampleStore "1" 1 sampleEntry rfl rfl (by decide)

/-- Replacing a present key via `Map.set` with an entry of the same id
preserves the id sequence of the store. -/
theorem mapSet_map_id (l : List DiaryEntry) (k : Nat) (u : DiaryEntry)
    (hid : u.id = k) (hex : ∃ x ∈ l, x.id = k) :
    (mapSet l k u).map (fun e => e.id) = l.map (fun e => e.id) := by
  induction l with
  | nil =>
      obtain ⟨x, hx, _⟩ := hex
      simp at hx
  | cons a l ih =>
      by_cases hak : (a.id == k) = true
      · have hak' : a.id = k := by simpa using hak
        simp [mapSet, hak, hid, hak']
      · simp only [mapSet, hak, Bool.false_eq_true, if_false]
        obtain ⟨x, hx, hxk⟩ := hex
        rcases List.mem_cons.mp hx with hxa | hxl
        · subst hxa
          exact absurd (by simpa using hxk) (by simpa using hak)
        · simp [List.map_cons, ih ⟨x, hxl, hxk⟩]

/-- C7: `getEntriesByUserId` returns exactly the stored entries of the
given user (a permutation of the user filter, hence entries of other
users never appear), sorted by `createdAt` descending, with entries of
equal `createdAt` kept in insertion order (the per-timestamp restriction
of the output equals that of the input); the empty store yields the
empty list as a valid result. -/
theorem getEntriesByUserId_spec (st : MemStorage) (u : String) :
    (st.getEntriesByUserId u).Perm
      (st.entries.filter (fun e => e.userId == u)) ∧
    (∀ e, e ∈ st.getEntriesByUserId u ↔ e ∈ st.entries ∧ e.userId = u) ∧
    (st.getEntriesByUserId u).Pairwise
      (fun a b => b.createdAt ≤ a.createdAt) ∧
    (∀ t, (st.getEntriesByUserId u).filter (fun e => e.createdAt == t) =
        (st.entries.filter (fun e => e.userId == u)).filter
          (fun e => e.createdAt == t)) ∧
    MemStorage.init.getEntriesByUserId u = [] := by
  have htrans : ∀ a b c : DiaryEntry,
      (decide (b.createdAt ≤ a.createdAt)) = true →
      (decide (c.createdAt ≤ b.createdAt)) = true →
      (decide (c.createdAt ≤ a.createdAt)) = true := by
    intro a b c hab hbc
    simp only [decide_eq_true_eq] at *
    omega
  have htotal : ∀ a b : DiaryEntry,
      ((decide (b.createdAt ≤ a.createdAt)) ||
        (decide (a.createdAt ≤ b.createdAt))) = true := by
    intro a b
    simp only [Bool.or_eq_true, decide_eq_true_eq]
    exact Nat.le_total _ _
  refine ⟨?_, ?_, ?_, ?_, ?_⟩
  · exact List.mergeSort_perm _ _
  · intro e
    unfold MemStorage.getEntriesByUserId
    rw [List.mem_mergeSort, List.mem_filter]
    simp
  · have hs := List.sorted_mergeSort htrans htotal
      (st.entries.filter (fun e => e.userId == u))
    exact hs.imp (fun h => by simpa using h)
  · intro t
    have hall : ∀ x ∈ (st.entries.filter (fun e => e.userId == u)).filter
        (fun e => e.createdAt == t), x.createdAt = t := by
      intro x hx
      simpa using (List.mem_filter.mp hx).2
    have hpair : ((st.entries.filter (fun e => e.userId == u)).filter
        (fun e => e.createdAt == t)).Pairwise
        (fun a b => (decide (b.createdAt ≤ a.createdAt)) = true) := by
      apply List.pairwise_of_forall_mem_list
      intro a ha b hb
      simp [hall a ha, hall b hb]
    have hsub : ((st.entries.filter (fun e => e.userId == u)).filter
        (fun e => e.createdAt == t)).Sublist
        (st.entries.filter (fun e => e.userId == u)) :=
      List.filter_sublist _
    have hsubsort := List.sublist_mergeSort htrans htotal hpair hsub
    have hfc : ((st.entries.filter (fun e => e.userId == u)).filter
        (fun e => e.createdAt == t)).filter (fun e => e.createdAt == t) =
        (st.entries.filter (fun e => e.userId == u)).filter
          (fun e => e.createdAt == t) :=
      List.filter_eq_self.mpr (fun a ha => by simp [hall a ha])
    have hsub2 := hsubsort.filter (fun e => e.createdAt == t)
    rw [hfc] at hsub2
    have hperm := (List.mergeSort_perm
        (st.entries.filter (fun e => e.userId == u))
        (fun a b => b.createdAt ≤ a.createdAt)).filter
        (fun e => e.createdAt == t)
    exact (hsub2.eq_of_length hperm.length_eq.symm).symm
  · simp [MemStorage.getEntriesByUserId, MemStorage.init]

/-- C8: the ids assigned by a run of sequential creations from any store
state are the consecutive integers starting at the current counter; from
the freshly constructed store they are 1, 2, ..., N, strictly increasing
with no repeats; and the only mutating operation besides create and
delete, the sharing update, never changes any stored id. -/
theorem createEntry_ids_strictly_increasing :
    (∀ (st : MemStorage) (subs : List (Nat × StorageEntryInput)),
        (runCreates st subs).1 = List.range' st.currentId subs.length) ∧
    (∀ subs : List (Nat × StorageEntryInput),
        (runCreates MemStorage.init subs).1 = List.range' 1 subs.length) ∧
    (∀ subs : List (Nat × StorageEntryInput),
        ((runCreates MemStorage.init subs).1).Pairwise (· < ·)) ∧
    (∀ subs : List (Nat × StorageEntryInput),
        ((runCreates MemStorage.init subs).1).Nodup) ∧
    (∀ (st : MemStorage) (i : Int) (b : Bool) (sid : Option String),
        ((st.updateEntrySharing i b sid).2).entries.map (fun e => e.id) =
          st.entries.map (fun e => e.id)) := by
  have hrun : ∀ (subs : List (Nat × StorageEntryInput)) (st : MemStorage),
      (runCreates st subs).1 = List.range' st.currentId subs.length := by
    intro subs
    induction subs with
    | nil => intro st; simp [runCreates]
    | cons p rest ih =>
        intro st
        obtain ⟨now, e⟩ := p
        simp [runCreates, MemStorage.createEntry, ih, List.range'_succ]
  refine ⟨fun st subs => hrun subs st, fun subs => hrun subs MemStorage.init,
    ?_, ?_, ?_⟩
  · intro subs
    rw [hrun subs MemStorage.init]
    exact List.pairwise_lt_range' 1 subs.length
  · intro subs
    rw [hrun subs MemStorage.init]
    exact List.nodup_range' 1 subs.length
  · intro st i b sid
    unfold MemStorage.updateEntrySharing
    cases hf : st.entries.find? (fun x => (x.id : Int) == i) with
    | none => rfl
    | some e =>
        have hmem := List.mem_of_find?_eq_some hf
        exact mapSet_map_id st.entries e.id _ rfl ⟨e, hmem, rfl⟩

/-- C4 witness: the share-token lookup theorem applied to a concrete
store where the token matches a shared entry. -/
theorem getEntryByShareId_found_iff_witness :
    sharedEntry ∈ sharedStore.entries ∧
    sharedEntry.shareId = some "tok" ∧ sharedEntry.isShared = true :=
  getEntryByShareId_found_iff sharedStore "tok"
